import Mathlib

/-!
Verification of the annotation-session core of Snowball-Annotate
(`state_manager.py` together with the setting-key table of `config.py`).

The Python code is shallowly embedded: the `StateManager` instance becomes the
structure `SM`, Python dicts with string keys become association lists with
dict semantics (`lookupKey` / `insertKey`: assignment replaces the first
occurrence of the key or appends), machine/Python integers become `Int`, and
fallible code returns explicit outcome values (`AddOutcome`, `Except`).
Qt signals, logging and disk writes carry no in-memory state and are omitted;
the asynchronous `QTimer.singleShot` saves write only to disk.
-/

namespace Snowball

/-- File-system paths are plain strings, as in the Python source. -/
abbrev Path := String

/-- One bounding box of an annotation record, as stored in
`annotation_data["annotations_list"]` and filtered in
`StateManager.update_classes` by `b.get("class")`. -/
structure Box where
  x : Int
  y : Int
  w : Int
  h : Int
  cls : String
deriving DecidableEq, Repr

/-- A well-formed per-image annotation record: the dict shape the application
stores, with the fields `StateManager` reads (`annotations_list`, `approved`,
`negative`). -/
structure AnnotationRecord where
  annotations_list : List Box
  approved : Bool
  negative : Bool
deriving DecidableEq, Repr

/-- A value of the `annotations` dict. `state_manager.py` guards most reads
with `isinstance(data, dict)`; `malformed` stands for a loaded value that is
not a dict. -/
inductive AnnValue where
  | malformed
  | record (r : AnnotationRecord)
deriving DecidableEq, Repr

/-- `d.get(k)` on a Python dict with string keys (first, and for a real dict
only, occurrence of the key). -/
def lookupKey {α : Type} : List (String × α) → String → Option α
  | [], _ => none
  | (k, v) :: rest, p => if k = p then some v else lookupKey rest p

/-- `d[k] = v` on a Python dict: replace the (first) entry with key `k`, or
append a new entry at the end. -/
def insertKey {α : Type} : List (String × α) → String → α → List (String × α)
  | [], p, v => [(p, v)]
  | (k, w) :: rest, p, v =>
    if k = p then (p, v) :: rest else (k, w) :: insertKey rest p v

/-- `isinstance(d, dict) and d.get("approved")`: the test used by every full
scan in `state_manager.py` (load_session, update_classes,
start_training_task, export_data_for_yolo). -/
def isApproved : AnnValue → Bool
  | .malformed => false
  | .record r => r.approved

/-- The full-scan approved count:
`sum(1 for d in annotations.values() if isinstance(d, dict) and d.get("approved"))`. -/
def approvedScan (m : List (Path × AnnValue)) : Nat :=
  (m.filter fun kv => isApproved kv.2).length

/-- The literal `SETTING_KEYS` dict of `config.py` (lines 51-72). Note that it
contains no entry for `"training.trigger_20_enabled"` or
`"training.trigger_100_enabled"`. -/
def SETTING_KEYS : List (String × String) :=
  [("session_path", "paths.session_path"),
   ("model_save_path", "paths.model_save_path"),
   ("runs_dir", "paths.runs_dir"),
   ("last_image_dir", "paths.last_image_dir"),
   ("base_model", "prediction.base_model"),
   ("img_size", "prediction.img_size"),
   ("confidence_threshold", "prediction.confidence_threshold"),
   ("epochs_20", "training.epochs_20"),
   ("lr_20", "training.lr_20"),
   ("epochs_100", "training.epochs_100"),
   ("lr_100", "training.lr_100"),
   ("aug_flipud", "training.augment.flipud"),
   ("aug_fliplr", "training.augment.fliplr"),
   ("aug_degrees", "training.augment.degrees")]

/-- `config.SETTING_KEYS[k]`: Python dict subscription, which raises
`KeyError(k)` when the key is absent. -/
def settingKeysSubscript (k : String) : Except String String :=
  match lookupKey SETTING_KEYS k with
  | some v => .ok v
  | none => .error k

/-- The in-memory state of a `StateManager` instance that the verified
operations touch. `dh_annotations` is `self.dataset_handler.annotations`
(the handler is constructed unconditionally in `__init__`; its
`update_annotation(p, d)` is modelled from the spec as storing the record,
since `training_pipeline.py` is not part of the sources). `has_pipeline` is
`self.training_pipeline is not None`, and `class_to_id` is
`self.training_pipeline.class_to_id`. -/
structure SM where
  image_list : List Path
  current_index : Int
  annotations : List (Path × AnnValue)
  class_list : List String
  approved_count : Int
  last_successful_run_dir : Option Path
  dh_annotations : List (Path × AnnValue)
  blocking_task_running : Bool
  has_pipeline : Bool
  class_to_id : List (String × Nat)
deriving DecidableEq, Repr

/-- `sorted(list(set(l)))` on a list of strings: strictly increasing list of
the distinct elements (Python sorts strings lexicographically by code point,
as Lean's `String` order does). -/
def insertSorted (x : String) : List String → List String
  | [] => [x]
  | y :: ys =>
    if x = y then y :: ys
    else if x < y then x :: y :: ys
    else y :: insertSorted x ys

/-- See `insertSorted`. -/
def sortedDedup (l : List String) : List String :=
  l.foldr insertSorted []

/-- `StateManager.__init__` as far as session state is concerned: empty lists,
index -1, `class_list = sorted(list(set(class_list))) if class_list else []`
(identical to `sortedDedup` also on `[]`), zero approved, no last run. -/
def initSM (class_list : List String) : SM :=
  { image_list := []
    current_index := -1
    annotations := []
    class_list := sortedDedup class_list
    approved_count := 0
    last_successful_run_dir := none
    dh_annotations := []
    blocking_task_running := false
    has_pipeline := true
    class_to_id := [] }

/-- A training request as `add_annotation` would schedule it: which settings
keys the epochs and learning rate are read from, and the run-name prefix
(`f"major_.."` / `f"mini_.."`). -/
structure TrainingRequest where
  epochsKey : String
  lrKey : String
  runNamePrefix : String
deriving DecidableEq, Repr

/-- The trigger decision of `add_annotation` (state_manager.py lines 686-719)
downstream of reading the two enable settings: an if/elif first fixes the
trigger level (100 before 20), then the level picks the parameters and the
prefix. -/
def triggerDecision (trigger100Enabled trigger20Enabled : Bool)
    (count : Int) : Option TrainingRequest :=
  let level : Option Nat :=
    if trigger100Enabled = true ∧ 0 < count ∧ count % 100 = 0 then some 100
    else if trigger20Enabled = true ∧ 0 < count ∧ count % 20 = 0 then some 20
    else none
  match level with
  | some 100 =>
    some ⟨"training.epochs_100", "training.lr_100", "major_" ++ toString count⟩
  | some 20 =>
    some ⟨"training.epochs_20", "training.lr_20", "mini_" ++ toString count⟩
  | _ => none

/-- The second argument of `add_annotation`: either a dict (well-formed
record) or a value failing `isinstance(annotation_data, dict)`. -/
inductive PyArg where
  | notADict
  | dict (r : AnnotationRecord)
deriving DecidableEq, Repr

/-- How a call to `add_annotation` ends: a normal return (with the training
request it scheduled via `QTimer.singleShot`, if any), a `KeyError` from a
dict subscription, or an `AttributeError` from calling `.get` on a non-dict
stored value. -/
inductive AddOutcome where
  | ret (b : Bool) (scheduled : Option TrainingRequest)
  | keyError (key : String)
  | attrError
deriving DecidableEq, Repr

/-- `self.annotations.get(image_path, {}).get("approved", False)` of
`add_annotation` (line 647), for a stored value that is a dict. -/
def wasApprovedBefore (s : SM) (image_path : Path) : Bool :=
  match lookupKey s.annotations image_path with
  | some (.record old) => old.approved
  | _ => false

/-- The state mutation of `add_annotation` (lines 651-661): store the record,
adjust `approved_count` by the approval transition clamped at 0, and mirror
the record into the dataset handler. -/
def applyAdd (s : SM) (image_path : Path) (r : AnnotationRecord) : SM :=
  let c0 : Int :=
    if r.approved = true ∧ wasApprovedBefore s image_path = false then
      s.approved_count + 1
    else if r.approved = false ∧ wasApprovedBefore s image_path = true then
      s.approved_count - 1
    else s.approved_count
  { s with
    annotations := insertKey s.annotations image_path (.record r)
    approved_count := max 0 c0
    dh_annotations := insertKey s.dh_annotations image_path (.record r) }

/-- `StateManager.add_annotation` (state_manager.py lines 636-735).
Validation, the stored-record transition with the incremental clamped counter
update (`applyAdd`), and the trigger block, which on a fresh approval with a
pipeline present begins by subscripting `config.SETTING_KEYS` with the two
trigger-enable names. -/
def add_annotation (s : SM) (image_path : Path) (annotation_data : PyArg) :
    AddOutcome × SM :=
  if image_path = "" then (.ret false none, s)
  else
    match annotation_data with
    | .notADict => (.ret false none, s)
    | .dict r =>
      if lookupKey s.annotations image_path = some .malformed then
        (.attrError, s)
      else
        let s' := applyAdd s image_path r
        if r.approved = true ∧ wasApprovedBefore s image_path = false ∧
            s.has_pipeline = true then
          match settingKeysSubscript "training.trigger_20_enabled" with
          | .error missing => (.keyError missing, s')
          | .ok _ =>
            match settingKeysSubscript "training.trigger_100_enabled" with
            | .error missing => (.keyError missing, s')
            | .ok _ =>
              (.ret true (triggerDecision true true s'.approved_count), s')
        else (.ret true none, s')

/-- Run a sequence of `add_annotation` calls, keeping the state each call
leaves behind (also when it raises: the mutation precedes the raise). -/
def runAdds (s : SM) : List (Path × PyArg) → SM
  | [] => s
  | (p, a) :: rest => runAdds ( add_annotation s p a).2 rest

/-- The cached-counter invariant of the spec: `approved_count` equals the
full-scan count of approved records. -/
def invariantHolds (s : SM) : Prop :=
  s.approved_count = (approvedScan s.annotations : Int)

instance (s : SM) : Decidable (invariantHolds s) := by
  unfold invariantHolds; infer_instance

/-- `StateManager._start_task` (lines 787-873), up to worker/thread plumbing
that carries no session state: reject when the pipeline is unavailable, then
when a blocking task is already running; otherwise mark a task as running and
report success. -/
def startTask (s : SM) : Bool × SM :=
  if s.has_pipeline = false then (false, s)
  else if s.blocking_task_running = true then (false, s)
  else (true, { s with blocking_task_running := true })

/-- `StateManager.start_prediction` (lines 739-752): the worker class is
always defined (a dummy is installed on import failure) and
`SETTING_KEYS["confidence_threshold"]` is a present key, so the call goes
straight to `_start_task`. -/
def start_prediction (s : SM) (image_path : Path) : Bool × SM :=
  startTask s

/-- `StateManager.start_training_task` (lines 754-785): collect the approved
annotations; with none, return false without touching state; otherwise hand
over to `_start_task`. -/
def start_training_task (s : SM) (epochs : Nat) (lr : Rat)
    (runNamePfx : String) : Bool × SM :=
  let approved_paths :=
    (s.annotations.filter fun kv => isApproved kv.2).map Prod.fst
  if approved_paths.isEmpty then (false, s)
  else startTask s

/-- The aggregate `save_session` serializes and `load_session` reads back
(state_manager.py lines 434-440 and 337-342). -/
structure SessionData where
  image_list : List Path
  annotations : List (Path × AnnValue)
  current_index : Int
  class_list : List String
  last_successful_run_dir : Option Path
deriving DecidableEq, Repr

/-- `StateManager.save_session` (lines 429-455): the dict written to disk
(the disk write itself carries no in-memory state). -/
def save_session (s : SM) : SessionData :=
  { image_list := s.image_list
    annotations := s.annotations
    current_index := s.current_index
    class_list := s.class_list
    last_successful_run_dir := s.last_successful_run_dir }

/-- What `load_session` finds at the session path: no file, a file json.load
rejects, or a parsed session dict. -/
inductive SessionFile where
  | missing
  | unparseable
  | parsed (d : SessionData)
deriving DecidableEq, Repr

/-- See `load_from_data`: the pruning step (lines 374-380), which removes
every annotation whose key is not in the loaded image list. -/
def prunedAnnotations (d : SessionData) : List (Path × AnnValue) :=
  d.annotations.filter fun kv => d.image_list.contains kv.1

/-- See `load_from_data`: the repaired `current_index` (lines 382-391). -/
def repairedIndex (d : SessionData) : Int :=
  if 0 ≤ d.current_index ∧ d.current_index < (d.image_list.length : Int) then
    d.current_index
  else if d.image_list = [] then -1 else 0

/-- The body of `StateManager.load_session` for an existing parseable file
(lines 337-416): validate the last-run dir against the file system (`isDir`),
normalize a non-empty class list, take over image list and annotations, prune
annotation keys that are not in the image list (`prunedAnnotations`), repair
the index (`repairedIndex`), recompute the approved count by full scan, and
rebuild the dataset handler's mirror from the well-formed surviving records.
Always reports success. -/
def load_from_data (isDir : Path → Bool) (s : SM) (d : SessionData) :
    Bool × SM :=
  (true,
    { s with
      image_list := d.image_list
      annotations := prunedAnnotations d
      current_index := repairedIndex d
      class_list :=
        if d.class_list = [] then s.class_list
        else if sortedDedup d.class_list = s.class_list then s.class_list
        else sortedDedup d.class_list
      approved_count := (approvedScan (prunedAnnotations d) : Int)
      last_successful_run_dir :=
        match d.last_successful_run_dir with
        | some dir => if isDir dir then some dir else none
        | none => none
      dh_annotations :=
        (prunedAnnotations d).foldl
          (fun acc kv =>
            match kv.2 with
            | .record _ => insertKey acc kv.1 kv.2
            | .malformed => acc) [] })

/-- `StateManager.load_session` (lines 310-427): a missing file resets to an
empty session and reports success; a file `json.load` rejects reports failure
before any state is touched; a parsed file goes through `load_from_data`. -/
def load_session (isDir : Path → Bool) (s : SM) : SessionFile → Bool × SM
  | .missing =>
    (true,
      { s with
        image_list := []
        annotations := []
        current_index := -1
        approved_count := 0
        last_successful_run_dir := none
        dh_annotations := [] })
  | .unparseable => (false, s)
  | .parsed d => load_from_data isDir s d

/-- The class-list normalization of `update_classes` (line 551):
`sorted(list(set(str(cls).strip() for cls in new_class_list if str(cls).strip())))`. -/
def normalizeClasses (l : List String) : List String :=
  sortedDedup ((l.map String.trim).filter fun c => !(c == ""))

/-- The per-record box filter of `update_classes` (lines 579-590): keep
exactly the boxes whose class is in the new class set; everything else of the
record (its `approved` and `negative` flags included) is copied unchanged. -/
def filterRecordBoxes (validSet : List String) (r : AnnotationRecord) :
    AnnotationRecord :=
  { r with
    annotations_list := r.annotations_list.filter fun b => validSet.contains b.cls }

/-- The treatment of one annotations entry in the rebuild loop of
`update_classes` (lines 567-598): non-dict values are skipped, negative
records pass through untouched, every other record gets its boxes
filtered. -/
def classUpdateEntry (clean : List String) (kv : Path × AnnValue) :
    Option (Path × AnnValue) :=
  match kv.2 with
  | .malformed => none
  | .record r =>
    if r.negative = true then some (kv.1, AnnValue.record r)
    else some (kv.1, AnnValue.record (filterRecordBoxes clean r))

/-- `StateManager.update_classes` (lines 550-615): a no-op when the
normalized incoming list equals the current class list; otherwise rebuild the
annotations map entry by entry (`classUpdateEntry`), recompute the approved
count by full scan, and mirror the rebuilt map into the dataset handler. -/
def update_classes (s : SM) (new_class_list : List String) : SM :=
  if normalizeClasses new_class_list = s.class_list then s
  else
    { s with
      class_list := normalizeClasses new_class_list
      annotations := s.annotations.filterMap
        (classUpdateEntry (normalizeClasses new_class_list))
      approved_count := (approvedScan (s.annotations.filterMap
        (classUpdateEntry (normalizeClasses new_class_list))) : Int)
      dh_annotations := (s.annotations.filterMap
        (classUpdateEntry (normalizeClasses new_class_list))).foldl
          (fun acc kv => insertKey acc kv.1 kv.2) [] }

/-- The observable outcome of `export_data_for_yolo`: the returned yaml path,
the state after the call, and the dataset handler's `annotations` while
`export_for_yolo` ran (`none` when the call returned before reaching the
exporter). -/
structure ExportResult where
  yaml_path : Option Path
  final : SM
  dh_during : Option (List (Path × AnnValue))
deriving Repr

/-- `approved_paths` of `export_data_for_yolo` (lines 978-982): the keys of
the approved annotation entries. -/
def approvedPathsOf (m : List (Path × AnnValue)) : List Path :=
  (m.filter fun kv => isApproved kv.2).map Prod.fst

/-- `export_annotations` of `export_data_for_yolo` (lines 987-989): the dict
comprehension over the approved paths. -/
def exportAnnotationsOf (m : List (Path × AnnValue)) :
    List (Path × AnnValue) :=
  (approvedPathsOf m).filterMap fun p =>
    (lookupKey m p).map fun v => (p, v)

/-- `StateManager.export_data_for_yolo` (lines 960-1028). The dataset handler
exists; `export_for_yolo` is the opaque external exporter (`exporter`,
receiving the paths argument and the handler's annotations at call time).
Guards in source order: pipeline/class map attribute, approved paths,
export annotations, empty class map. Then the source saves
`dataset_handler.annotations`, replaces it with the approved subset, runs the
exporter, and restores the saved copy in a `finally` block. -/
def export_data_for_yolo
    (exporter : List Path → List (Path × AnnValue) → Option Path)
    (s : SM) (target_dir : Path) : ExportResult :=
  if s.has_pipeline = false then ⟨none, s, none⟩
  else if (approvedPathsOf s.annotations).isEmpty = true then ⟨none, s, none⟩
  else if (exportAnnotationsOf s.annotations).isEmpty = true then
    ⟨none, s, none⟩
  else if s.class_to_id.isEmpty = true then ⟨none, s, none⟩
  else
    ⟨exporter ((exportAnnotationsOf s.annotations).map Prod.fst)
        (exportAnnotationsOf s.annotations),
      { s with dh_annotations := s.dh_annotations },
      some (exportAnnotationsOf s.annotations)⟩

/-- An exporter that reports failure; used to evaluate the export control
flow at concrete inputs. -/
def trivialExporter : List Path → List ( Path × AnnValue) → Option Path :=
  fun _ _ => none

/-! ## Helper lemmas about the dict embedding -/

theorem lookupKey_filter {α : Type} (q : String → Bool)
    (m : List (String × α)) (p : String) :
    lookupKey (m.filter fun kv => q kv.1) p
      = if q p = true then lookupKey m p else none := by
  induction m with
  | nil => simp [lookupKey]
  | cons kv rest ih =>
    obtain ⟨k, v⟩ := kv
    rw [List.filter_cons]
    by_cases hk : k = p
    · subst hk
      by_cases hq : q k = true
      · simp [hq, lookupKey]
      · simp only [hq, if_neg, Bool.false_eq_true] at *
        simpa [hq] using ih
    · by_cases hq : q k = true
      · simpa [hq, lookupKey, hk] using ih
      · simpa [hq, lookupKey, hk] using ih

theorem lookupKey_insertKey_self {α : Type} (m : List (String × α))
    (p : String) (v : α) :
    lookupKey (insertKey m p v) p = some v := by
  induction m with
  | nil => simp [insertKey, lookupKey]
  | cons kv rest ih =>
    obtain ⟨k, w⟩ := kv
    by_cases hk : k = p
    · simp [insertKey, hk, lookupKey]
    · simp [insertKey, hk, lookupKey, ih]

theorem approvedScan_pos_of_lookup {m : List (Path × AnnValue)} {p : Path}
    {w : AnnValue} (hl : lookupKey m p = some w) (hw : isApproved w = true) :
    1 ≤ approvedScan m := by
  induction m with
  | nil => simp [lookupKey] at hl
  | cons kv rest ih =>
    obtain ⟨k, v⟩ := kv
    rw [lookupKey] at hl
    by_cases hk : k = p
    · rw [if_pos hk] at hl
      obtain rfl : v = w := by injection hl
      simp [approvedScan, List.filter_cons, hw]
    · rw [if_neg hk] at hl
      have := ih hl
      simp only [approvedScan, List.filter_cons] at *
      split <;> simp <;> omega

/-- The contribution of the entry at key `p` to the approved count. -/
def lookupApprovedWeight (m : List (Path × AnnValue)) (p : Path) : Int :=
  match lookupKey m p with
  | some w => if isApproved w = true then 1 else 0
  | none => 0

theorem approvedScan_cons (k : Path) (v : AnnValue)
    (rest : List (Path × AnnValue)) :
    approvedScan ((k, v) :: rest)
      = (if isApproved v = true then 1 else 0) + approvedScan rest := by
  simp only [approvedScan, List.filter_cons]
  split_ifs with h
  · simp [h, Nat.add_comm]
  · simp at h
    simp [h]

theorem approvedScan_insertKey (m : List (Path × AnnValue)) (p : Path)
    (v : AnnValue) :
    (approvedScan (insertKey m p v) : Int) =
      (approvedScan m : Int) + (if isApproved v = true then 1 else 0)
        - lookupApprovedWeight m p := by
  induction m with
  | nil =>
    simp only [insertKey, lookupApprovedWeight, lookupKey, approvedScan_cons]
    have : approvedScan ([] : List (Path × AnnValue)) = 0 := rfl
    rw [this]
    split_ifs <;> simp
  | cons kv rest ih =>
    obtain ⟨k, w⟩ := kv
    by_cases hk : k = p
    · subst hk
      have h1 : insertKey ((k, w) :: rest) k v = (k, v) :: rest := by
        simp [insertKey]
      have h2 : lookupApprovedWeight ((k, w) :: rest) k
          = if isApproved w = true then 1 else 0 := by
        simp [lookupApprovedWeight, lookupKey]
      rw [h1, h2, approvedScan_cons, approvedScan_cons]
      split_ifs <;> push_cast <;> omega
    · have h1 : insertKey ((k, w) :: rest) p v
          = (k, w) :: insertKey rest p v := by
        simp [insertKey, hk]
      have h2 : lookupApprovedWeight ((k, w) :: rest) p
          = lookupApprovedWeight rest p := by
        simp [lookupApprovedWeight, lookupKey, hk]
      rw [h1, h2, approvedScan_cons, approvedScan_cons]
      split_ifs at ih ⊢ <;> push_cast at ih ⊢ <;> omega

/-- The mutation of `add_annotation` keeps the cached counter equal to the
full scan whenever it was equal before (the stored value at the path, if any,
being a dict). -/
theorem applyAdd_invariant (s : SM) (p : Path) (r : AnnotationRecord)
    (h : invariantHolds s)
    (hmal : lookupKey s.annotations p ≠ some .malformed) :
    invariantHolds (applyAdd s p r) := by
  have hscan := approvedScan_insertKey s.annotations p (.record r)
  simp only [lookupApprovedWeight, isApproved] at hscan
  unfold invariantHolds at h
  rcases hl : lookupKey s.annotations p with _ | w
  · unfold invariantHolds applyAdd
    simp only [wasApprovedBefore, hl] at hscan ⊢
    rw [hscan]
    by_cases hr : r.approved = true
    · simp only [hr]
      simp
      omega
    · rw [Bool.not_eq_true] at hr
      simp only [hr]
      simp
      omega
  · rcases w with _ | old
    · exact absurd hl hmal
    · have hcast : old.approved = true → 1 ≤ (approvedScan s.annotations : Int) := by
        intro hap
        exact_mod_cast approvedScan_pos_of_lookup hl (by simpa [isApproved] using hap)
      unfold invariantHolds applyAdd
      simp only [wasApprovedBefore, hl] at hscan ⊢
      rw [hscan]
      by_cases hr : r.approved = true
      · by_cases ho : old.approved = true
        · simp only [hr, ho]
          simp
          omega
        · rw [Bool.not_eq_true] at ho
          simp only [hr, ho]
          simp
          omega
      · rw [Bool.not_eq_true] at hr
        by_cases ho : old.approved = true
        · have h1 := hcast ho
          simp only [hr, ho]
          simp
          omega
        · rw [Bool.not_eq_true] at ho
          simp only [hr, ho]
          simp
          omega

/-- One `add_annotation` call preserves the cached-counter invariant,
whatever its outcome (also when the trigger block raises: the mutation
precedes the raise). -/
theorem add_invariant_step (s : SM) (p : Path) (a : PyArg)
    (h : invariantHolds s) : invariantHolds ( add_annotation s p a).2 := by
  unfold add_annotation
  split
  · exact h
  · split
    · exact h
    · split
      · exact h
      · next r hmal =>
        simp only
        split
        · split
          · exact applyAdd_invariant s p r h hmal
          · split
            · exact applyAdd_invariant s p r h hmal
            · exact applyAdd_invariant s p r h hmal
        · exact applyAdd_invariant s p r h hmal

/-! ## The claims -/

/-- C1: starting from a state in which the cached `approved_count` equals the
full-scan count of approved records, any sequence of `add_annotation` calls
leaves a state in which it still does — the incremental plus-one/minus-one/
zero adjustment with its clamp at 0 never drifts from the map. Every point
after a call returns is the final state of some such sequence, so the
invariant holds at every such point. -/
theorem c1_approved_count_never_drifts (s : SM) (calls : List (Path × PyArg))
    (h : invariantHolds s) : invariantHolds (runAdds s calls) := by
  induction calls generalizing s with
  | nil => simpa [runAdds] using h
  | cons pa rest ih =>
    obtain ⟨p, a⟩ := pa
    rw [runAdds]
    exact ih ( add_annotation s p a).2 (add_invariant_step s p a h)

/-- Witness for C1 at a concrete state and call sequence: an approval, an
overwrite that de-approves, a negative record, and a rejected empty path. -/
theorem c1_witness :
    invariantHolds (initSM ["cat"])
    ∧ invariantHolds (runAdds (initSM ["cat"])
        [("a.jpg", .dict ⟨[⟨0, 0, 3, 4, "cat"⟩], true, false⟩),
         ("b.jpg", .dict ⟨[], true, false⟩),
         ("a.jpg", .dict ⟨[], false, false⟩),
         ("", .dict ⟨[], true, false⟩),
         ("c.jpg", .notADict)]) :=
  ⟨by decide, c1_approved_count_never_drifts (initSM ["cat"]) _ (by decide)⟩

/-- C2: the claim describes the intended trigger tiers, but the trigger block
of `add_annotation` crashes first: on the 100th fresh approval the
subscription `config.SETTING_KEYS["training.trigger_20_enabled"]` raises
`KeyError` — `SETTING_KEYS` has no such entry — so no trigger ever fires.
The decision logic the crash makes unreachable would indeed have requested
major-tier parameters with run prefix `major_100` at 100 (never minor), and
minor-tier parameters with prefix `mini_20`, `mini_40`, `mini_60`, `mini_80`
at those counts, and nothing at a non-multiple of 20. -/
theorem c2_trigger_block_raises_keyerror :
    ( add_annotation { initSM [] with approved_count := 99 } "img.jpg"
        (.dict ⟨[], true, false⟩)).1 = .keyError "training.trigger_20_enabled"
    ∧ lookupKey SETTING_KEYS "training.trigger_20_enabled" = none
    ∧ lookupKey SETTING_KEYS "training.trigger_100_enabled" = none
    ∧ triggerDecision true true 100 =
        some ⟨"training.epochs_100", "training.lr_100", "major_100"⟩
    ∧ triggerDecision true true 20 =
        some ⟨"training.epochs_20", "training.lr_20", "mini_20"⟩
    ∧ triggerDecision true true 40 =
        some ⟨"training.epochs_20", "training.lr_20", "mini_40"⟩
    ∧ triggerDecision true true 60 =
        some ⟨"training.epochs_20", "training.lr_20", "mini_60"⟩
    ∧ triggerDecision true true 80 =
        some ⟨"training.epochs_20", "training.lr_20", "mini_80"⟩
    ∧ triggerDecision true true 30 = none := by
  decide

/-- C3: `add_annotation` does reject an empty path and a non-dict record with
a plain `false`, and completes normally with `true` on a well-formed record
that causes no fresh approval; but on any fresh approval (with the training
pipeline present, as it is after a normal construction) it raises `KeyError`
out of the trigger block instead of returning `true`, contradicting the
claim that every well-formed call completes normally. -/
theorem c3_fresh_approval_raises_instead_of_returning_true :
    ( add_annotation (initSM []) "" (.dict ⟨[], true, false⟩)).1
        = .ret false none
    ∧ ( add_annotation (initSM []) "" (.dict ⟨[], true, false⟩)).2 = initSM []
    ∧ ( add_annotation (initSM []) "a.jpg" .notADict).1 = .ret false none
    ∧ ( add_annotation (initSM []) "a.jpg" .notADict).2 = initSM []
    ∧ ( add_annotation (initSM []) "a.jpg" (.dict ⟨[], false, false⟩)).1
        = .ret true none
    ∧ ( add_annotation (initSM []) "a.jpg" (.dict ⟨[], true, false⟩)).1
        = .keyError "training.trigger_20_enabled" := by
  decide

/-- C4: while a blocking task is running, starting a prediction or a
training task returns false and leaves the state unchanged; and
`start_training_task` also returns false without touching state when no
annotation record is approved. -/
theorem c4_single_flight_and_no_empty_training (s t : SM)
    (image_path runPfx : String) (epochs : Nat) (lr : Rat)
    (hbusy : s.blocking_task_running = true)
    (hzero : approvedScan t.annotations = 0) :
    start_prediction s image_path = (false, s)
    ∧ start_training_task s epochs lr runPfx = (false, s)
    ∧ start_training_task t epochs lr runPfx = (false, t) := by
  have hstart : startTask s = (false, s) := by
    unfold startTask
    rcases hp : s.has_pipeline with _ | _
    · simp
    · simp [hbusy]
  have hfil : (t.annotations.filter fun kv => isApproved kv.2) = [] :=
    List.length_eq_zero.mp (by simpa [approvedScan] using hzero)
  refine ⟨hstart, ?_, ?_⟩
  · unfold start_training_task
    rcases he : ((s.annotations.filter fun kv =>
        isApproved kv.2).map Prod.fst).isEmpty with _ | _
    · simpa [he] using hstart
    · simp [he]
  · unfold start_training_task
    simp [hfil]

/-- Witness for C4 at concrete states: one with a running task, one with a
single unapproved record. -/
theorem c4_witness :
    start_prediction { initSM [] with blocking_task_running := true } "a.jpg"
        = (false, { initSM [] with blocking_task_running := true })
    ∧ start_training_task { initSM [] with blocking_task_running := true }
        3 (1 / 200) "mini_20"
        = (false, { initSM [] with blocking_task_running := true })
    ∧ start_training_task
        { initSM [] with annotations := [("a.jpg", .record ⟨[], false, false⟩)] }
        3 (1 / 200) "mini_20"
        = (false,
           { initSM [] with
             annotations := [("a.jpg", .record ⟨[], false, false⟩)] }) :=
  c4_single_flight_and_no_empty_training
    { initSM [] with blocking_task_running := true }
    { initSM [] with annotations := [("a.jpg", .record ⟨[], false, false⟩)] }
    "a.jpg" "mini_20" 3 (1 / 200) (by decide) (by decide)

/-- C6: `load_session` on a missing file resets to an empty session (empty
image list and annotations, index -1, approved count 0, no last-run pointer)
and reports success, while on an existing but unparseable file it reports
failure and returns the prior state entirely unchanged. -/
theorem c6_missing_resets_unparseable_leaves_state (isDir : Path → Bool)
    (s : SM) :
    (load_session isDir s .missing).1 = true
    ∧ (load_session isDir s .missing).2.image_list = []
    ∧ (load_session isDir s .missing).2.annotations = []
    ∧ (load_session isDir s .missing).2.current_index = -1
    ∧ (load_session isDir s .missing).2.approved_count = 0
    ∧ (load_session isDir s .missing).2.last_successful_run_dir = none
    ∧ (load_session isDir s .missing).2.dh_annotations = []
    ∧ load_session isDir s .unparseable = (false, s) :=
  ⟨rfl, rfl, rfl, rfl, rfl, rfl, rfl, rfl⟩

/-- C10: `add_annotation` checks `image_path` against nothing but emptiness:
a path outside `image_list` is stored all the same, its approval increments
`approved_count`, and only a later `load_session` prunes such a key (the
prune drops it because membership in the loaded image list fails). -/
theorem c10_no_membership_check (isDir : Path → Bool) (s : SM) (p : Path)
    (r : AnnotationRecord) (hp : ¬p = "")
    (hout : s.image_list.contains p = false)
    (hnew : lookupKey s.annotations p = none)
    (happ : r.approved = true) (hnonneg : 0 ≤ s.approved_count) :
    lookupKey ( add_annotation s p (.dict r)).2.annotations p
        = some (.record r)
    ∧ ( add_annotation s p (.dict r)).2.approved_count
        = s.approved_count + 1
    ∧ lookupKey
        (load_from_data isDir ( add_annotation s p (.dict r)).2
          (save_session ( add_annotation s p (.dict r)).2)).2.annotations p
        = none := by
  have hsnd : ( add_annotation s p (.dict r)).2 = applyAdd s p r := by
    unfold add_annotation
    rw [if_neg hp]
    simp only
    rw [if_neg (by simp [hnew])]
    split
    · split <;> rfl
    · rfl
  have hwas : wasApprovedBefore s p = false := by
    unfold wasApprovedBefore
    rw [hnew]
  have hanns : (applyAdd s p r).annotations
      = insertKey s.annotations p (.record r) := rfl
  have himg : (applyAdd s p r).image_list = s.image_list := rfl
  have hcount : (applyAdd s p r).approved_count = s.approved_count + 1 := by
    unfold applyAdd
    simp only [hwas, happ]
    simp
    omega
  refine ⟨?_, ?_, ?_⟩
  · rw [hsnd, hanns]
    exact lookupKey_insertKey_self s.annotations p (.record r)
  · rw [hsnd, hcount]
  · rw [hsnd]
    show lookupKey (prunedAnnotations (save_session (applyAdd s p r))) p
        = none
    unfold prunedAnnotations save_session
    simp only
    rw [lookupKey_filter, himg]
    refine if_neg ?_
    simp only [Bool.not_eq_true]
    exact hout

/-- Witness for C10: a state whose image list holds only b.jpg, approving the
off-list a.jpg. -/
theorem c10_witness :
    ¬"a.jpg" = ""
    ∧ ({ initSM [] with image_list := ["b.jpg"] } : SM).image_list.contains
        "a.jpg" = false
    ∧ lookupKey ({ initSM [] with image_list := ["b.jpg"] } : SM).annotations
        "a.jpg" = none
    ∧ (AnnotationRecord.mk [] true false).approved = true
    ∧ 0 ≤ ({ initSM [] with image_list := ["b.jpg"] } : SM).approved_count
    ∧ (lookupKey
          ( add_annotation { initSM [] with image_list := ["b.jpg"] } "a.jpg"
            (.dict ⟨[], true, false⟩)).2.annotations "a.jpg"
          = some (.record ⟨[], true, false⟩)
       ∧ ( add_annotation { initSM [] with image_list := ["b.jpg"] } "a.jpg"
            (.dict ⟨[], true, false⟩)).2.approved_count
          = ({ initSM [] with image_list := ["b.jpg"] } : SM).approved_count + 1
       ∧ lookupKey
          (load_from_data (fun _ => false)
            ( add_annotation { initSM [] with image_list := ["b.jpg"] } "a.jpg"
              (.dict ⟨[], true, false⟩)).2
            (save_session
              ( add_annotation { initSM [] with image_list := ["b.jpg"] }
                "a.jpg" (.dict ⟨[], true, false⟩)).2)).2.annotations "a.jpg"
          = none) :=
  ⟨by decide, by decide, by decide, by decide, by decide,
    c10_no_membership_check (fun _ => false)
      { initSM [] with image_list := ["b.jpg"] } "a.jpg" ⟨[], true, false⟩
      (by decide) (by decide) (by decide) (by decide) (by decide)⟩

/-- C5: `save_session` followed by `load_session` on the same path succeeds
and reproduces the aggregate: the image list and class list are unchanged
(given the class list in its maintained normal form, sorted without
duplicates), and every annotation entry the reload still holds is exactly
the entry that was saved. -/
theorem c5_save_load_roundtrip (isDir : Path → Bool) (s : SM)
    (hnorm : sortedDedup s.class_list = s.class_list) :
    (load_session isDir s (.parsed (save_session s))).1 = true
    ∧ (load_session isDir s (.parsed (save_session s))).2.image_list
        = s.image_list
    ∧ (load_session isDir s (.parsed (save_session s))).2.class_list
        = s.class_list
    ∧ ∀ p v,
        lookupKey
          (load_session isDir s (.parsed (save_session s))).2.annotations p
          = some v →
        lookupKey s.annotations p = some v := by
  refine ⟨rfl, rfl, ?_, ?_⟩
  · show (if (save_session s).class_list = [] then s.class_list
      else if sortedDedup (save_session s).class_list = s.class_list then
        s.class_list
      else sortedDedup (save_session s).class_list) = s.class_list
    unfold save_session
    simp only
    by_cases hcl : s.class_list = []
    · rw [if_pos hcl]
    · rw [if_neg hcl, hnorm, if_pos rfl]
  · intro p v hv
    have hv2 : lookupKey (prunedAnnotations (save_session s)) p = some v := hv
    unfold prunedAnnotations at hv2
    rw [lookupKey_filter] at hv2
    split at hv2
    · exact hv2
    · exact absurd hv2 (by simp)

/-- A concrete session state used by the round-trip witness: one on-list
annotated image and one off-list annotation key. -/
def c5State : SM :=
  { initSM [] with
    image_list := ["x.jpg"]
    annotations := [("x.jpg", .record ⟨[⟨1, 2, 3, 4, "a"⟩], true, false⟩),
                    ("gone.jpg", .record ⟨[], false, false⟩)]
    current_index := 0
    approved_count := 1 }

/-- Witness for C5 at a concrete session with an off-list annotation key
(which the reload prunes, so the pointwise clause is only about surviving
keys). -/
theorem c5_witness :
    sortedDedup c5State.class_list = c5State.class_list
    ∧ ((load_session (fun _ => false) c5State (.parsed (save_session c5State))).1
        = true
      ∧ (load_session (fun _ => false) c5State
          (.parsed (save_session c5State))).2.image_list = c5State.image_list
      ∧ (load_session (fun _ => false) c5State
          (.parsed (save_session c5State))).2.class_list = c5State.class_list
      ∧ ∀ p v,
          lookupKey (load_session (fun _ => false) c5State
            (.parsed (save_session c5State))).2.annotations p = some v →
          lookupKey c5State.annotations p = some v) :=
  ⟨by decide,
    c5_save_load_roundtrip (fun _ => false) c5State (by decide)⟩

/-- C7: a successful load from a parseable file reports success and leaves a
repaired state: every annotation key is a member of the image list, the
approved count equals the full scan of the surviving records, and the current
index lies in `[0, length-1]` when the image list is non-empty and is -1 when
it is empty. -/
theorem c7_load_repairs_state (isDir : Path → Bool) (s : SM)
    (d : SessionData) :
    (load_from_data isDir s d).1 = true
    ∧ ((load_from_data isDir s d).2.annotations.all fun kv =>
        (load_from_data isDir s d).2.image_list.contains kv.1) = true
    ∧ (load_from_data isDir s d).2.approved_count
        = (approvedScan (load_from_data isDir s d).2.annotations : Int)
    ∧ (¬(load_from_data isDir s d).2.image_list = [] →
        0 ≤ (load_from_data isDir s d).2.current_index
        ∧ (load_from_data isDir s d).2.current_index
            < ((load_from_data isDir s d).2.image_list.length : Int))
    ∧ ((load_from_data isDir s d).2.image_list = [] →
        (load_from_data isDir s d).2.current_index = -1) := by
  refine ⟨rfl, ?_, rfl, ?_, ?_⟩
  · show ((prunedAnnotations d).all fun kv =>
      d.image_list.contains kv.1) = true
    rw [List.all_eq_true]
    intro kv hkv
    exact (List.mem_filter.mp hkv).2
  · intro hne
    replace hne : ¬d.image_list = [] := hne
    show 0 ≤ repairedIndex d ∧ repairedIndex d < (d.image_list.length : Int)
    unfold repairedIndex
    split
    · next hidx => exact ⟨hidx.1, hidx.2⟩
    · have hpos : 0 < d.image_list.length :=
        List.length_pos.mpr hne
      exact ⟨le_refl 0, by exact_mod_cast hpos⟩
  · intro hemp
    replace hemp : d.image_list = [] := hemp
    show repairedIndex d = -1
    unfold repairedIndex
    split
    · next hidx =>
      rw [hemp] at hidx
      simp at hidx
      omega
    · rfl

/-- Looking up a key that held a well-formed record, after the rebuild loop
of `update_classes`. -/
theorem lookupKey_classUpdate (clean : List String)
    (m : List (Path × AnnValue)) (p : Path) (r : AnnotationRecord)
    (h : lookupKey m p = some (.record r)) :
    lookupKey (m.filterMap (classUpdateEntry clean)) p
      = some (.record
          (if r.negative = true then r else filterRecordBoxes clean r)) := by
  induction m with
  | nil => simp [lookupKey] at h
  | cons kv rest ih =>
    obtain ⟨k, v⟩ := kv
    rw [lookupKey] at h
    rw [List.filterMap_cons]
    by_cases hk : k = p
    · rw [if_pos hk] at h
      obtain rfl : v = .record r := by injection h
      by_cases hneg : r.negative = true
      · simp [classUpdateEntry, hneg, lookupKey, hk]
      · rw [Bool.not_eq_true] at hneg
        simp [classUpdateEntry, hneg, lookupKey, hk]
    · rw [if_neg hk] at h
      rcases v with _ | r0
      · simpa [classUpdateEntry] using ih h
      · by_cases hneg : r0.negative = true
        · simpa [classUpdateEntry, hneg, lookupKey, hk] using ih h
        · rw [Bool.not_eq_true] at hneg
          simpa [classUpdateEntry, hneg, lookupKey, hk] using ih h

/-- C8: `update_classes` with an unchanged normalized class list changes
nothing; with a changed one it installs the normalized list, keeps the
cached count equal to the full scan of the rebuilt map, and rewrites every
well-formed record pointwise — a negative record survives untouched, any
other record keeps exactly the boxes whose class is in the new set, its
`approved` and `negative` flags unchanged. -/
theorem c8_update_classes_filters_boxes (s : SM) (ncl : List String) :
    (normalizeClasses ncl = s.class_list → update_classes s ncl = s)
    ∧ (¬normalizeClasses ncl = s.class_list →
        (update_classes s ncl).class_list = normalizeClasses ncl
        ∧ (update_classes s ncl).approved_count
            = (approvedScan (update_classes s ncl).annotations : Int)
        ∧ ∀ p r, lookupKey s.annotations p = some (.record r) →
            lookupKey (update_classes s ncl).annotations p
              = some (.record (if r.negative = true then r
                  else filterRecordBoxes (normalizeClasses ncl) r))
            ∧ (filterRecordBoxes (normalizeClasses ncl) r).approved
                = r.approved
            ∧ (filterRecordBoxes (normalizeClasses ncl) r).negative
                = r.negative
            ∧ (filterRecordBoxes (normalizeClasses ncl) r).annotations_list
                = r.annotations_list.filter fun b =>
                    (normalizeClasses ncl).contains b.cls) := by
  constructor
  · intro heq
    unfold update_classes
    rw [if_pos heq]
  · intro hne
    refine ⟨?_, ?_, ?_⟩
    · unfold update_classes
      rw [if_neg hne]
    · unfold update_classes
      rw [if_neg hne]
    · intro p r hl
      refine ⟨?_, rfl, rfl, rfl⟩
      have hmap :
          (update_classes s ncl).annotations
            = s.annotations.filterMap
                (classUpdateEntry (normalizeClasses ncl)) := by
        unfold update_classes
        rw [if_neg hne]
      rw [hmap]
      exact lookupKey_classUpdate (normalizeClasses ncl) s.annotations p r hl

theorem mem_keys_of_mem_filter_keys {q : Path × AnnValue → Bool}
    {m : List (Path × AnnValue)} {p : Path}
    (h : p ∈ (m.filter q).map Prod.fst) : p ∈ m.map Prod.fst := by
  rcases List.mem_map.mp h with ⟨kv, hkv, rfl⟩
  exact List.mem_map.mpr ⟨kv, List.mem_of_mem_filter hkv, rfl⟩

/-- The dict comprehension of `export_data_for_yolo` (lines 987-989) over the
approved paths equals the approved-entry sublist of the annotations dict,
whose keys are distinct. -/
theorem exportSubset_eq_filter (m : List (Path × AnnValue))
    (h : (m.map Prod.fst).Nodup) :
    exportAnnotationsOf m = m.filter fun kv => isApproved kv.2 := by
  unfold exportAnnotationsOf approvedPathsOf
  induction m with
  | nil => rfl
  | cons kv rest ih =>
    obtain ⟨k, v⟩ := kv
    have hnd : k ∉ rest.map Prod.fst ∧ (rest.map Prod.fst).Nodup :=
      List.nodup_cons.mp (by simpa using h)
    have hcongr : ∀ p ∈ (rest.filter fun kv => isApproved kv.2).map Prod.fst,
        ((lookupKey ((k, v) :: rest) p).map fun w => (p, w))
          = ((lookupKey rest p).map fun w => (p, w)) := by
      intro p hp
      have hpk : ¬k = p := fun hkp =>
        hnd.1 (hkp ▸ mem_keys_of_mem_filter_keys hp)
      rw [lookupKey, if_neg hpk]
    rw [List.filter_cons]
    by_cases happ : isApproved v = true
    · rw [if_pos (by simpa using happ)]
      rw [List.map_cons, List.filterMap_cons]
      have hself : lookupKey ((k, v) :: rest) k = some v := by
        rw [lookupKey, if_pos rfl]
      rw [hself]
      simp only [Option.map_some']
      rw [List.filterMap_congr hcongr, ih hnd.2]
    · rw [if_neg (by simpa using happ)]
      rw [List.filterMap_congr hcongr, ih hnd.2]

/-- A state with one approved and one unapproved record, both mirrored in the
dataset handler, and a non-empty class map: a concrete input on which the
export swaps the handler's annotations. -/
def c9State : SM :=
  { initSM [] with
    image_list := ["a.jpg", "b.jpg"]
    annotations := [("a.jpg", .record ⟨[], true, false⟩),
                    ("b.jpg", .record ⟨[], false, false⟩)]
    dh_annotations := [("a.jpg", .record ⟨[], true, false⟩),
                       ("b.jpg", .record ⟨[], false, false⟩)]
    approved_count := 1
    class_to_id := [("cat", 0)] }

/-- C9, counterexample: during the exporter call of `export_data_for_yolo`
the dataset handler's annotations are NOT the annotations it held before the
call — the code swaps in the approved-only subset and restores the original
afterwards, exactly the aliasing the claim rules out. -/
theorem c9_counterexample_swap_observed :
    (export_data_for_yolo trivialExporter c9State "out").dh_during
      ≠ some c9State.dh_annotations
    ∧ (export_data_for_yolo trivialExporter c9State "out").dh_during
      = some [("a.jpg", .record ⟨[], true, false⟩)] := by
  decide

/-- C9 as amended: `export_data_for_yolo` never mutates the session's
annotations map, and on return the dataset handler's annotations equal their
pre-call value; but during the call the handler's annotations are swapped to
the approved-only subset (when the exporter is reached at all). -/
theorem c9_amended_export_frame
    (exporter : List Path → List (Path × AnnValue) → Option Path)
    (s : SM) (target_dir : Path)
    (hnd : (s.annotations.map Prod.fst).Nodup) :
    (export_data_for_yolo exporter s target_dir).final.annotations
        = s.annotations
    ∧ (export_data_for_yolo exporter s target_dir).final.dh_annotations
        = s.dh_annotations
    ∧ ((export_data_for_yolo exporter s target_dir).dh_during = none
       ∨ (export_data_for_yolo exporter s target_dir).dh_during
           = some (s.annotations.filter fun kv => isApproved kv.2)) := by
  unfold export_data_for_yolo
  split
  · exact ⟨rfl, rfl, Or.inl rfl⟩
  · split
    · exact ⟨rfl, rfl, Or.inl rfl⟩
    · split
      · exact ⟨rfl, rfl, Or.inl rfl⟩
      · split
        · exact ⟨rfl, rfl, Or.inl rfl⟩
        · refine ⟨rfl, rfl, Or.inr ?_⟩
          show some (exportAnnotationsOf s.annotations)
              = some (s.annotations.filter fun kv => isApproved kv.2)
          rw [exportSubset_eq_filter s.annotations hnd]

/-- Witness for C9's amended theorem at the concrete swap state. -/
theorem c9_amended_witness :
    ((c9State.annotations.map Prod.fst).Nodup)
    ∧ ((export_data_for_yolo trivialExporter c9State "out").final.annotations
        = c9State.annotations
      ∧ (export_data_for_yolo trivialExporter c9State "out").final.dh_annotations
        = c9State.dh_annotations
      ∧ ((export_data_for_yolo trivialExporter c9State "out").dh_during = none
         ∨ (export_data_for_yolo trivialExporter c9State "out").dh_during
             = some (c9State.annotations.filter fun kv => isApproved kv.2))) :=
  ⟨by decide,
    c9_amended_export_frame trivialExporter c9State "out" (by decide)⟩

end Snowball
